import Mathlib

set_option maxRecDepth 10000

/-!
Verification of the batch image-text-extraction pipeline in
`skills/exam-question-processor/scripts`.

The development shallowly embeds the Python sources:

* `image_text_extractor.py` — path/MIME helpers (`get_image_mime_type`),
  the completion client with its model-fallback loop
  (`extract_text_from_image`), the round scheduler
  (`batch_extract_from_folder`) and the summary reporter
  (`_create_summary_report`, here `createSummaryReport`);
* `extract_images.py` — the single-model retry loop with exponential
  backoff (`eiLoop` / `ei_extract`);
* `join_questions.py` / `extract_images.py` — `natural_sort_key`.

Network interaction is modelled by an oracle that yields, per attempt and
model, the classified response of the completion service; file-system
effects (artifact writes) are modelled as an explicit trace.
-/

/-! ## Path helpers (Python `pathlib`) -/

/-- Split a character list at every `'/'` (the components of a POSIX
path, separators dropped). -/
def splitSlash : List Char → List Char → List String
  | [], acc => [String.mk acc.reverse]
  | c :: cs, acc =>
    if c = '/' then String.mk acc.reverse :: splitSlash cs []
    else splitSlash cs (c :: acc)

/-- The final component of a path, as `pathlib.Path(p).name` computes it:
split on `'/'`, drop empty and `"."` components, take the last one. -/
def pathName (p : String) : String :=
  (((splitSlash p.data []).filter (fun s => !(s == "" || s == "."))).getLast?).getD ""

/-- ASCII lowercasing, character by character (`str.lower()`; the
extensions looked up are ASCII). -/
def lowerStr (s : String) : String := String.mk (s.data.map Char.toLower)

/-- Index of the last `'.'` in a character list, if any. -/
def rfindDot : List Char → Option Nat
  | [] => none
  | c :: cs =>
    match rfindDot cs with
    | some i => some (i + 1)
    | none => if c = '.' then some 0 else none

/-- The extension of a path, as `pathlib.Path(p).suffix`: the final
component from its last dot on, provided that dot is neither the first nor
the last character of the component; otherwise the empty string. -/
def pathSuffix (p : String) : String :=
  let n := (pathName p).data
  match rfindDot n with
  | some i => if 0 < i ∧ i + 1 < n.length then String.mk (n.drop i) else ""
  | none => ""

/-- The stem of a path, as `pathlib.Path(p).stem`: the final component with
the suffix removed. -/
def pathStem (p : String) : String :=
  let n := (pathName p).data
  String.mk (n.take (n.length - (pathSuffix p).data.length))

/-! ## MIME lookup (`ImageTextExtractor.get_image_mime_type`) -/

/-- MIME type of an image path: the lowercased suffix is looked up in a
fixed table, any other extension defaulting to `"image/jpeg"`
(`mime_types.get(ext, 'image/jpeg')`). -/
def get_image_mime_type (p : String) : String :=
  let ext := lowerStr (pathSuffix p)
  if ext = ".jpg" then "image/jpeg"
  else if ext = ".jpeg" then "image/jpeg"
  else if ext = ".png" then "image/png"
  else if ext = ".gif" then "image/gif"
  else if ext = ".webp" then "image/webp"
  else if ext = ".bmp" then "image/bmp"
  else "image/jpeg"

/-! ## Sorting

Python's `sorted` is a stable ascending sort; any stable sort computes the
same list, so we model it by left-to-right stable insertion, parametrised
by the strict ordering `lt` that `sorted` consults. -/

/-- Insert `a` into a sorted list, strictly before the first element it is
`lt`-less than (so equal elements keep their original relative order). -/
def insortBy {α : Type} (lt : α → α → Bool) (a : α) : List α → List α
  | [] => [a]
  | b :: bs => if lt a b then a :: b :: bs else b :: insortBy lt a bs

/-- Stable ascending sort by the strict ordering `lt`. -/
def sortBy {α : Type} (lt : α → α → Bool) (xs : List α) : List α :=
  xs.foldl (fun acc a => insortBy lt a acc) []

/-- Strict lexicographic order on character lists, comparing code points —
how Python compares strings. -/
def charListLt : List Char → List Char → Bool
  | [], [] => false
  | [], _ :: _ => true
  | _ :: _, [] => false
  | a :: as, b :: bs => if a = b then charListLt as bs else decide (a.toNat < b.toNat)

/-- Strict order on strings by code points (Python `str.__lt__`). -/
def strLtB (a b : String) : Bool := charListLt a.data b.data

/-- The order in which `batch_extract_from_folder` discovers files:
`sorted(folder.glob(file_pattern))`, i.e. plain lexicographic filename
order. -/
def discoverOrder (names : List String) : List String := sortBy strLtB names

/-! ## Natural sort key (`natural_sort_key`) -/

/-- ASCII digit test (the `\d` runs split by the sorting regex; the
filenames handled here are ASCII). -/
def isDigitChar (c : Char) : Bool := decide (48 ≤ c.toNat ∧ c.toNat ≤ 57)

/-- One part of a natural-sort key: a non-digit run kept as a string, or a
digit run converted with `int(...)`. -/
inductive SortPart where
  | strPart (s : String)
  | numPart (n : Nat)
deriving DecidableEq, Repr

/-- Numeric value of a digit run, as `int(part)` computes it. -/
def digitsToNat (ds : List Char) : Nat := ds.foldl (fun a c => 10 * a + (c.toNat - 48)) 0

/-- Close off the run accumulated (in reverse) as one `SortPart`. -/
def flushRun (acc : List Char) (d : Bool) : SortPart :=
  if d then .numPart (digitsToNat acc.reverse) else .strPart (String.mk acc.reverse)

/-- Split into alternating non-digit/digit runs exactly as
`re.split(r'(\d+)', s)` does: the result starts and ends with a (possibly
empty) non-digit part, digit parts in between. -/
def splitRunsAux : List Char → List Char → Bool → List SortPart
  | [], acc, d => if d then [flushRun acc true, .strPart ""] else [flushRun acc false]
  | c :: cs, acc, d =>
    if isDigitChar c = d then splitRunsAux cs (c :: acc) d
    else flushRun acc d :: splitRunsAux cs [c] (isDigitChar c)

/-- `natural_sort_key`: `[int(part) if part.isdigit() else part for part in
re.split(r'(\d+)', str(filename))]`. -/
def natural_sort_key (s : String) : List SortPart := splitRunsAux s.data [] false

/-- Strict order on key parts. Two `natural_sort_key` values always agree
on the kind of part at each shared index (both alternate, string first), so
the mixed cases — on which Python would raise `TypeError` — are never
consulted; they are set to `false` here. -/
def sortPartLt : SortPart → SortPart → Bool
  | .strPart a, .strPart b => strLtB a b
  | .numPart a, .numPart b => decide (a < b)
  | _, _ => false

/-- Strict lexicographic order on part lists (Python list comparison: first
differing element decides; a strict prefix is smaller). -/
def keyLt : List SortPart → List SortPart → Bool
  | [], [] => false
  | [], _ :: _ => true
  | _ :: _, [] => false
  | a :: as, b :: bs => if a = b then keyLt as bs else sortPartLt a b

/-- The natural-sort strict order: compare `natural_sort_key` values. -/
def naturalLtB (a b : String) : Bool := keyLt (natural_sort_key a) (natural_sort_key b)

/-- The order in which `extract_images.py::process_images_folder` and
`join_questions.py` arrange discovered files:
`sorted(files, key=natural_sort_key)`. -/
def naturalOrder (names : List String) : List String := sortBy naturalLtB names

/-! ## Completion client (`ImageTextExtractor.extract_text_from_image`) -/

/-- Classified response of one network call to the completion service.
`ok` carries the extracted text, the model identifier the service reports
(`result.get("model")`) and `usage.total_tokens` when present; `httpErr` is
an `HTTPError` with its status code; `reqErr` is any other
`requests.exceptions.RequestException` (timeout, connection error); `exn`
is any other exception. -/
inductive ApiResponse where
  | ok (text : String) (model : Option String) (usage : Option Nat)
  | httpErr (status : Nat)
  | reqErr
  | exn
deriving DecidableEq, Repr

/-- Result dictionary of `extract_text_from_image`: either the success
shape `{success: True, image_path, extracted_text, model, usage, attempts}`
or the failure shape `{success: False, image_path, error_type}`. -/
inductive ExtractResult where
  | ok (imagePath text : String) (model : Option String) (usage : Option Nat) (attempts : Nat)
  | err (imagePath : String) (errorType : Option String)
deriving DecidableEq, Repr

/-- The `success` field of a result. -/
def ExtractResult.isOk : ExtractResult → Bool
  | .ok .. => true
  | .err .. => false

/-- The `image_path` field of a result. -/
def ExtractResult.imagePath : ExtractResult → String
  | .ok p _ _ _ _ => p
  | .err p _ => p

/-- The `error_type` field of a result (`none` on success). -/
def ExtractResult.errorType : ExtractResult → Option String
  | .ok .. => none
  | .err _ t => t

/-- Side-effect trace of one `extract_text_from_image` call: the network
calls made, as (1-based attempt index, requested model), and the
`time.sleep` delays observed, in seconds, in order. -/
structure NetTrace where
  calls : List (Nat × String)
  sleeps : List Nat
deriving DecidableEq, Repr

/-- The `for attempt, current_model in enumerate(models_to_try, 1)` loop of
`extract_text_from_image`. Per attempt: a success returns at once; a 429
sleeps 2s and falls through to the next roster model when
`retry_with_other_models` holds and one remains, else breaks; a 400
likewise with a 1s sleep; any other `HTTPError` breaks; a
`RequestException` sleeps `2 ** attempt` and — because `continue` advances
the `for` loop — also moves to the next model, while `attempt >=
max_retries` breaks; any other exception breaks. Falling off the loop or
breaking yields the failure dictionary with the last error. -/
def tryModels (imagePath : String) (oracle : Nat → String → ApiResponse)
    (retryOther : Bool) (maxRetries total : Nat) :
    List String → Nat → Option String → ExtractResult × NetTrace
  | [], _, lastErr => (.err imagePath lastErr, ⟨[], []⟩)
  | m :: rest, attempt, _ =>
    match oracle attempt m with
    | .ok t mdl u => (.ok imagePath t mdl u attempt, ⟨[(attempt, m)], []⟩)
    | .httpErr status =>
      if status = 429 then
        if retryOther = true ∧ attempt < total then
          let r := tryModels imagePath oracle retryOther maxRetries total rest (attempt + 1)
            (some "HTTPError")
          (r.1, ⟨(attempt, m) :: r.2.calls, 2 :: r.2.sleeps⟩)
        else (.err imagePath (some "HTTPError"), ⟨[(attempt, m)], []⟩)
      else if status = 400 then
        if retryOther = true ∧ attempt < total then
          let r := tryModels imagePath oracle retryOther maxRetries total rest (attempt + 1)
            (some "HTTPError")
          (r.1, ⟨(attempt, m) :: r.2.calls, 1 :: r.2.sleeps⟩)
        else (.err imagePath (some "HTTPError"), ⟨[(attempt, m)], []⟩)
      else (.err imagePath (some "HTTPError"), ⟨[(attempt, m)], []⟩)
    | .reqErr =>
      if attempt < maxRetries then
        let r := tryModels imagePath oracle retryOther maxRetries total rest (attempt + 1)
          (some "RequestException")
        (r.1, ⟨(attempt, m) :: r.2.calls, 2 ^ attempt :: r.2.sleeps⟩)
      else (.err imagePath (some "RequestException"), ⟨[(attempt, m)], []⟩)
    | .exn => (.err imagePath (some "Exception"), ⟨[(attempt, m)], []⟩)

/-- `extract_text_from_image`. `encodeErr` is the exception name when
`encode_image_to_base64` fails (in which case the failure dictionary is
returned before any network activity); otherwise the models to try are
`[model] if model else self.vision_models` and the attempt loop runs. -/
def extract_text_from_image (imagePath : String) (encodeErr : Option String)
    (model : Option String) (visionModels : List String)
    (retryOther : Bool) (maxRetries : Nat)
    (oracle : Nat → String → ApiResponse) : ExtractResult × NetTrace :=
  match encodeErr with
  | some ty => (.err imagePath (some ty), ⟨[], []⟩)
  | none =>
    let mtt := match model with | some m => [m] | none => visionModels
    tryModels imagePath oracle retryOther maxRetries mtt.length mtt 1 none

/-! ## Summary reporter (`ImageTextExtractor._create_summary_report`) -/

/-- Token count a success result contributes to the summary:
`r.get("usage", {}).get("total_tokens", 0)`. -/
def resultTokens : ExtractResult → Nat
  | .ok _ _ _ u _ => u.getD 0
  | .err _ _ => 0

/-- The completed summary report file: totals, the success rate (written as
a percentage; recorded here in per-mille to stay in `Nat`), the
failed-image listing and the token total. -/
structure SummaryReport where
  total : Nat
  success : Nat
  failed : Nat
  ratePermille : Nat
  failedList : List (String × Option String)
  totalTokens : Nat
deriving DecidableEq, Repr

/-- `_create_summary_report`. `success_count` counts successes,
`fail_count = len(results) - success_count`, and the report then writes
`success_count/len(results)*100` — an unguarded division that raises
`ZeroDivisionError` on an empty result list, so no report is produced
there (`none`). The token total sums `total_tokens` over successes only. -/
def createSummaryReport (rs : List ExtractResult) : Option SummaryReport :=
  let sc := (rs.filter (fun r => r.isOk)).length
  let fc := rs.length - sc
  if rs.length = 0 then none
  else
    some ⟨rs.length, sc, fc, sc * 1000 / rs.length,
      (rs.filter (fun r => !r.isOk)).map (fun r => (pathName r.imagePath, r.errorType)),
      rs.foldl (fun a r => if r.isOk then a + resultTokens r else a) 0⟩

/-! ## Single-model retry loop (`extract_images.py::extract_text_from_image`) -/

/-- Response of one network call in `extract_images.py`: an HTTP response
with its status code and, for 2xx, whether `choices` is non-empty and the
content text; or a timeout, another `RequestException`, or another
exception. -/
inductive EIResponse where
  | status (code : Nat) (hasChoices : Bool) (text : String)
  | timeout
  | netErr
  | exn
deriving DecidableEq, Repr

/-- Outcome of `extract_images.py::extract_text_from_image`: the
`(text, error)` pair plus the trace of attempts made (0-based indices) and
sleeps observed. -/
structure EIOut where
  text : Option String
  error : Option String
  calls : List Nat
  sleeps : List Nat
deriving DecidableEq, Repr

/-- The `for attempt in range(max_retries)` loop of `extract_images.py`.
A 429 sleeps 60s and retries unless on the last attempt; a 5xx sleeps
`2 ** attempt` and retries likewise; any other 4xx raises through
`raise_for_status` into the `RequestException` handler, which also sleeps
`2 ** attempt` and retries; a 2xx returns the content (or a no-content
error); timeouts and other request errors back off the same way; any other
exception returns at once. All retries reuse the single given model. -/
def eiLoop (oracle : Nat → EIResponse) (maxRetries : Nat) : Nat → Nat → EIOut
  | _, 0 => ⟨none, some "Failed after all retries", [], []⟩
  | attempt, fuel + 1 =>
    match oracle attempt with
    | .status code hasChoices t =>
      if code = 429 then
        if attempt < maxRetries - 1 then
          let r := eiLoop oracle maxRetries (attempt + 1) fuel
          ⟨r.text, r.error, attempt :: r.calls, 60 :: r.sleeps⟩
        else ⟨none, some "Rate limit exceeded after all retries", [attempt], []⟩
      else if 500 ≤ code then
        if attempt < maxRetries - 1 then
          let r := eiLoop oracle maxRetries (attempt + 1) fuel
          ⟨r.text, r.error, attempt :: r.calls, 2 ^ attempt :: r.sleeps⟩
        else ⟨none, some "Server error after all retries", [attempt], []⟩
      else if 400 ≤ code then
        if attempt < maxRetries - 1 then
          let r := eiLoop oracle maxRetries (attempt + 1) fuel
          ⟨r.text, r.error, attempt :: r.calls, 2 ^ attempt :: r.sleeps⟩
        else ⟨none, some "Network error after all retries", [attempt], []⟩
      else if hasChoices then ⟨some t, none, [attempt], []⟩
      else ⟨none, some "No content in API response", [attempt], []⟩
    | .timeout =>
      if attempt < maxRetries - 1 then
        let r := eiLoop oracle maxRetries (attempt + 1) fuel
        ⟨r.text, r.error, attempt :: r.calls, 2 ^ attempt :: r.sleeps⟩
      else ⟨none, some "Request timeout after all retries", [attempt], []⟩
    | .netErr =>
      if attempt < maxRetries - 1 then
        let r := eiLoop oracle maxRetries (attempt + 1) fuel
        ⟨r.text, r.error, attempt :: r.calls, 2 ^ attempt :: r.sleeps⟩
      else ⟨none, some "Network error after all retries", [attempt], []⟩
    | .exn => ⟨none, some "Unexpected error", [attempt], []⟩

/-- `extract_images.py::extract_text_from_image` after a successful encode:
run the retry loop from attempt 0. -/
def ei_extract (oracle : Nat → EIResponse) (maxRetries : Nat) : EIOut :=
  eiLoop oracle maxRetries 0 maxRetries

/-! ## Round scheduler (`ImageTextExtractor.batch_extract_from_folder`) -/

/-- One discovered image file: its filename, the exception name when
reading/encoding it fails (`none` when it encodes), and the classified
service response for each (round, attempt, model). -/
structure Job where
  path : String
  encodeErr : Option String
  oracle : Nat → Nat → String → ApiResponse

/-- One artifact file written into the output folder: the per-job success
file `{stem}_extracted.txt` (metadata header plus text) or the per-job
error file `{stem}_error.txt`. -/
inductive Artifact where
  | successFile (fname imageName : String) (model : Option String) (round : Nat)
      (text : String) (usage : Option Nat)
  | errorFile (fname imageName : String) (errorType : Option String) (rounds : Nat)
deriving DecidableEq, Repr

/-- Side-effect trace of a batch run: each `extract_text_from_image`
invocation as (job path, round), each network call as (job path, round,
attempt, model), and each artifact file written, all in order. -/
structure BatchTrace where
  invocations : List (String × Nat)
  netCalls : List (String × Nat × Nat × String)
  artifacts : List Artifact
deriving DecidableEq, Repr

/-- The empty trace. -/
def BatchTrace.empty : BatchTrace := ⟨[], [], []⟩

/-- Concatenation of traces. -/
def BatchTrace.app (a b : BatchTrace) : BatchTrace :=
  ⟨a.invocations ++ b.invocations, a.netCalls ++ b.netCalls, a.artifacts ++ b.artifacts⟩

/-- The call the batch loop makes for one job in round `r`:
`extract_text_from_image(image_path=..., model=model,
retry_with_other_models=True, max_retries=3)`. -/
def batchAttempt (model : Option String) (vm : List String) (r : Nat) (j : Job) :
    ExtractResult × NetTrace :=
  extract_text_from_image j.path j.encodeErr model vm true 3 (j.oracle r)

/-- Whether the attempt for job `j` in round `r` reports success. -/
def jobSucceeds (model : Option String) (vm : List String) (j : Job) (r : Nat) : Bool :=
  (batchAttempt model vm r j).1.isOk

/-- The artifact the batch writes for job `j` processed in round `r` when
the round's failures are final: the success file (with `Retry Round: r+1`)
or the error file (with `Retry Rounds: r+1`). -/
def artifactOf (model : Option String) (vm : List String) (r : Nat) (j : Job) : Artifact :=
  match batchAttempt model vm r j with
  | (.ok _ t mdl u _, _) =>
    .successFile (pathStem j.path ++ "_extracted.txt") (pathName j.path) mdl (r + 1) t u
  | (.err _ ty, _) =>
    .errorFile (pathStem j.path ++ "_error.txt") (pathName j.path) ty (r + 1)

/-- One pass of the inner `for i, image_file in enumerate(current_batch)`
loop in round `r`. A success appends its result and writes the success
artifact; a failure is appended to the next round's retry queue when
`requeue` (that is, `retry_round < max_retry_rounds - 1`) holds, and
otherwise is finalized: its error artifact is written and its result
recorded. Returns (results appended, trace, next retry queue). -/
def processRound (model : Option String) (vm : List String) (r : Nat) (requeue : Bool) :
    List Job → List ExtractResult × BatchTrace × List Job
  | [] => ([], BatchTrace.empty, [])
  | j :: js =>
    match batchAttempt model vm r j, processRound model vm r requeue js with
    | (.ok ip t mdl u k, tr), (rs, bt, nq) =>
      (.ok ip t mdl u k :: rs,
       ⟨(j.path, r) :: bt.invocations,
        tr.calls.map (fun c => (j.path, r, c.1, c.2)) ++ bt.netCalls,
        .successFile (pathStem j.path ++ "_extracted.txt") (pathName j.path) mdl (r + 1) t u
          :: bt.artifacts⟩,
       nq)
    | (.err ip ty, tr), (rs, bt, nq) =>
      if requeue then
        (rs,
         ⟨(j.path, r) :: bt.invocations,
          tr.calls.map (fun c => (j.path, r, c.1, c.2)) ++ bt.netCalls,
          bt.artifacts⟩,
         j :: nq)
      else
        (.err ip ty :: rs,
         ⟨(j.path, r) :: bt.invocations,
          tr.calls.map (fun c => (j.path, r, c.1, c.2)) ++ bt.netCalls,
          .errorFile (pathStem j.path ++ "_error.txt") (pathName j.path) ty (r + 1)
            :: bt.artifacts⟩,
         nq)

/-- The `while retry_queue and retry_round < max_retry_rounds` loop. `fuel`
is `maxRounds - r`, so the loop stops when the retry queue empties or the
round count is exhausted, whichever comes first; failures are requeued
exactly when `retry_round < max_retry_rounds - 1`. -/
def runRounds (model : Option String) (vm : List String) (maxRounds : Nat) :
    Nat → Nat → List Job → List ExtractResult × BatchTrace × List Job
  | 0, _, queue => ([], BatchTrace.empty, queue)
  | _ + 1, _, [] => ([], BatchTrace.empty, [])
  | fuel + 1, r, j :: js =>
    let step := processRound model vm r (decide (r < maxRounds - 1)) (j :: js)
    let rest := runRounds model vm maxRounds fuel (r + 1) step.2.2
    (step.1 ++ rest.1, step.2.1.app rest.2.1, rest.2.2)

/-- The retry-round state machine started on a queue: round 0, full fuel. -/
def batchRun (model : Option String) (vm : List String) (maxRounds : Nat) (jobs : List Job) :
    List ExtractResult × BatchTrace × List Job :=
  runRounds model vm maxRounds maxRounds 0 jobs

/-- The idempotency filter: with `skip_existing`, drop every file whose
success artifact `{stem}_extracted.txt` already exists in the output
folder. -/
def eligibleJobs (skipExisting : Bool) (existing : List String) (jobs : List Job) : List Job :=
  if skipExisting then
    jobs.filter (fun j => !(existing.contains (pathStem j.path ++ "_extracted.txt")))
  else jobs

/-- `batch_extract_from_folder`: sort the discovered files (plain
`sorted`, lexicographic), apply the idempotency filter, return early with
no work when nothing remains, otherwise run the retry rounds. `existing`
is the set of filenames already in the output folder. -/
def batch_extract_from_folder (jobs : List Job) (existing : List String)
    (model : Option String) (skipExisting : Bool) (maxRounds : Nat) (vm : List String) :
    List ExtractResult × BatchTrace × List Job :=
  match eligibleJobs skipExisting existing (sortBy (fun a b => strLtB a.path b.path) jobs) with
  | [] => ([], BatchTrace.empty, [])
  | j :: js => batchRun model vm maxRounds (j :: js)

/-! ## Helper lemmas -/

/-- The token fold of the summary report equals the map-sum over the
successful results. -/
theorem foldl_tokens (rs : List ExtractResult) (a : Nat) :
    rs.foldl (fun acc r => if r.isOk then acc + resultTokens r else acc) a
      = a + ((rs.filter (fun r => r.isOk)).map resultTokens).sum := by
  induction rs generalizing a with
  | nil => simp
  | cons r rs ih => cases h : r.isOk <;> simp [h, ih, Nat.add_assoc]

/-- Every iteration of the attempt loop performs its network call first, so
the call list of a non-empty roster starts with the current attempt. -/
theorem tryModels_calls_cons (p : String) (o : Nat → String → ApiResponse)
    (ro : Bool) (mr tot : Nat) (m : String) (ms : List String) (a : Nat) (le : Option String) :
    ∃ cs, (tryModels p o ro mr tot (m :: ms) a le).2.calls = (a, m) :: cs := by
  cases h : o a m <;> simp only [tryModels, h] <;> (try split_ifs) <;> simp

/-! ## Claim theorems -/

/-- C10 (confirmed): `get_image_mime_type` is total — it maps the known
extensions `.jpg .jpeg .png .gif .webp .bmp` (case-insensitively, via the
lowercased suffix) to their MIME types and returns `"image/jpeg"` for every
other extension, always producing one of the five MIME strings. -/
theorem C10_mime_total (p : String) :
    ((lowerStr (pathSuffix p) = ".jpg" → get_image_mime_type p = "image/jpeg")
      ∧ (lowerStr (pathSuffix p) = ".jpeg" → get_image_mime_type p = "image/jpeg")
      ∧ (lowerStr (pathSuffix p) = ".png" → get_image_mime_type p = "image/png")
      ∧ (lowerStr (pathSuffix p) = ".gif" → get_image_mime_type p = "image/gif")
      ∧ (lowerStr (pathSuffix p) = ".webp" → get_image_mime_type p = "image/webp")
      ∧ (lowerStr (pathSuffix p) = ".bmp" → get_image_mime_type p = "image/bmp")
      ∧ (lowerStr (pathSuffix p) ∉ [".jpg", ".jpeg", ".png", ".gif", ".webp", ".bmp"] →
          get_image_mime_type p = "image/jpeg"))
    ∧ (get_image_mime_type p = "image/jpeg" ∨ get_image_mime_type p = "image/png"
        ∨ get_image_mime_type p = "image/gif" ∨ get_image_mime_type p = "image/webp"
        ∨ get_image_mime_type p = "image/bmp") := by
  constructor
  · refine ⟨fun h => ?_, fun h => ?_, fun h => ?_, fun h => ?_, fun h => ?_, fun h => ?_,
      fun h => ?_⟩ <;> simp only [get_image_mime_type]
    · rw [h]; decide
    · rw [h]; decide
    · rw [h]; decide
    · rw [h]; decide
    · rw [h]; decide
    · rw [h]; decide
    · simp only [List.mem_cons, List.not_mem_nil, or_false, not_or] at h
      obtain ⟨h1, h2, h3, h4, h5, h6⟩ := h
      rw [if_neg h1, if_neg h2, if_neg h3, if_neg h4, if_neg h5, if_neg h6]
  · simp only [get_image_mime_type]
    split_ifs <;> simp

/-- C10 witness: the lookup at a concrete upper-case `.PNG` path. -/
theorem C10_mime_total_witness :
    lowerStr (pathSuffix "photo.PNG") = ".png" ∧ get_image_mime_type "photo.PNG" = "image/png" :=
  ⟨rfl, (C10_mime_total "photo.PNG").1.2.2.1 rfl⟩

/-- C7 (confirmed): whenever the summary report is produced, its counters
reconcile — `success + failed = total`, `total` is the number of recorded
results, and the token total is the sum of token usage over successful
results only. -/
theorem C7_summary_reconciliation (rs : List ExtractResult) (rep : SummaryReport)
    (h : createSummaryReport rs = some rep) :
    rep.success + rep.failed = rep.total ∧ rep.total = rs.length ∧
      rep.totalTokens = ((rs.filter (fun r => r.isOk)).map resultTokens).sum := by
  unfold createSummaryReport at h
  split at h
  · exact absurd h (by simp)
  · have h' := Option.some.inj h
    subst h'
    refine ⟨Nat.add_sub_cancel' (List.length_filter_le _ _), rfl, ?_⟩
    simpa using foldl_tokens rs 0

/-- C7 witness: the report over one successful five-token result. -/
theorem C7_summary_reconciliation_witness :
    createSummaryReport [ExtractResult.ok "q1.jpeg" "t" none (some 5) 1]
        = some ⟨1, 1, 0, 1000, [], 5⟩
      ∧ (1 : Nat) + 0 = 1 :=
  ⟨rfl, ((C7_summary_reconciliation [ExtractResult.ok "q1.jpeg" "t" none (some 5) 1]
    ⟨1, 1, 0, 1000, [], 5⟩ rfl).1 : 1 + 0 = 1)⟩

/-- C8 (code bug): on an empty result list `_create_summary_report` does
not emit a zero-jobs report — the unguarded `success_count/len(results)`
raises `ZeroDivisionError`, modelled here by `none`. -/
theorem C8_summary_empty_crash : createSummaryReport [] = none := rfl

/-- C9 (confirmed): an explicit model argument bypasses the roster —
`models_to_try = [model]`, so every network call the attempt loop makes
uses exactly that model and at most one call is made, whatever the
response classification and even with `retry_with_other_models` enabled. -/
theorem C9_explicit_model_bypass (p : String) (encodeErr : Option String)
    (m : String) (vm : List String) (retryOther : Bool) (maxRetries : Nat)
    (oracle : Nat → String → ApiResponse) :
    ((extract_text_from_image p encodeErr (some m) vm retryOther maxRetries oracle).2.calls.all
        (fun c => c.2 == m)) = true
    ∧ (extract_text_from_image p encodeErr (some m) vm retryOther maxRetries
        oracle).2.calls.length ≤ 1 := by
  cases encodeErr with
  | some ty => simp [extract_text_from_image]
  | none =>
    simp only [extract_text_from_image]
    cases h : oracle 1 m <;>
      simp only [tryModels, h, List.length_cons, List.length_nil] <;>
      (try split_ifs) <;>
      simp [tryModels]

/-- One step of `extract_images.py`'s retry loop on a server error that is
not the last attempt: sleep `2 ** attempt` and retry the same model. -/
theorem eiLoop_step500 (oracle : Nat → EIResponse) (maxR a fuel : Nat)
    (ho : oracle a = .status 500 false "") (hlt : a < maxR - 1) :
    eiLoop oracle maxR a (fuel + 1)
      = ⟨(eiLoop oracle maxR (a + 1) fuel).text, (eiLoop oracle maxR (a + 1) fuel).error,
         a :: (eiLoop oracle maxR (a + 1) fuel).calls,
         2 ^ a :: (eiLoop oracle maxR (a + 1) fuel).sleeps⟩ := by
  simp [eiLoop, ho, hlt]

/-- One step of the roster loop on a 429 when fallback applies: sleep 2s
and move to the next model. -/
theorem tryModels_429_step (p : String) (o : Nat → String → ApiResponse)
    (mr tot : Nat) (m : String) (ms : List String) (a : Nat) (le : Option String)
    (ho : o a m = .httpErr 429) (hlt : a < tot) :
    tryModels p o true mr tot (m :: ms) a le
      = ((tryModels p o true mr tot ms (a + 1) (some "HTTPError")).1,
         ⟨(a, m) :: (tryModels p o true mr tot ms (a + 1) (some "HTTPError")).2.calls,
          2 :: (tryModels p o true mr tot ms (a + 1) (some "HTTPError")).2.sleeps⟩) := by
  simp [tryModels, ho, hlt]

/-- Exhausting `extract_images.py`'s retry loop on constant server errors:
every attempt retries the same (single) model after sleeping
`2 ** attempt`, until `max_retries` attempts have been made. -/
theorem eiLoop_allServerErr (oracle : Nat → EIResponse) (maxR : Nat)
    (h : ∀ i, i < maxR → oracle i = .status 500 false "") :
    ∀ fuel attempt, attempt + fuel = maxR →
      (eiLoop oracle maxR attempt fuel).text = none
      ∧ (eiLoop oracle maxR attempt fuel).calls = List.range' attempt fuel
      ∧ (eiLoop oracle maxR attempt fuel).sleeps
          = (List.range' attempt (fuel - 1)).map (fun i => 2 ^ i) := by
  intro fuel
  induction fuel with
  | zero => intro a _; simp [eiLoop]
  | succ f ih =>
    intro a ha
    have ho : oracle a = .status 500 false "" := h a (by omega)
    cases f with
    | zero =>
      have hlt : ¬(a < maxR - 1) := by omega
      simp [eiLoop, ho, hlt, List.range'_succ]
    | succ g =>
      have hlt : a < maxR - 1 := by omega
      have hr := ih (a + 1) (by omega)
      rw [eiLoop_step500 oracle maxR a (g + 1) ho hlt]
      refine ⟨hr.1, ?_, ?_⟩
      · simp [hr.2.1, List.range'_succ]
      · simpa [List.range'_succ] using congrArg (List.cons (2 ^ a)) hr.2.2

/-- C3 (counterexample): a `ServerError`-classified attempt (HTTP 500) in
`image_text_extractor.py` is not retried at all — the loop breaks after a
single network call with no backoff sleep, and the job is reported failed
this round. -/
theorem C3_backoff_counterexample :
    extract_text_from_image "img.jpeg" none none ["A", "B"] true 3
        (fun _ _ => .httpErr 500)
      = (.err "img.jpeg" (some "HTTPError"), ⟨[(1, "A")], []⟩) := rfl

/-- C3 (amended): in `extract_images.py` the client does retry the same
model with exponential backoff `2 ** attempt` bounded by `max_retries`
(shown by exhausting it on server errors); in `image_text_extractor.py`,
however, a `ServerError` breaks immediately after one call, and a
`TransientNetwork` error sleeps `2 ** attempt` but then advances to the
next roster model — when none remains the job fails this round. -/
theorem C3_backoff_amended (maxR : Nat) (oracle : Nat → EIResponse)
    (h500 : ∀ i, i < maxR → oracle i = .status 500 false "")
    (p A B : String) (mr : Nat)
    (o2 : Nat → String → ApiResponse) (hB : o2 1 A = .httpErr 500)
    (o3 : Nat → String → ApiResponse) (hC : o3 1 A = .reqErr) :
    ((ei_extract oracle maxR).text = none
      ∧ (ei_extract oracle maxR).calls = List.range maxR
      ∧ (ei_extract oracle maxR).sleeps = (List.range (maxR - 1)).map (fun i => 2 ^ i))
  ∧ (extract_text_from_image p none none [A, B] true mr o2).2 = ⟨[(1, A)], []⟩
  ∧ ((extract_text_from_image p none none [A] true 3 o3).2 = ⟨[(1, A)], [2]⟩
      ∧ (extract_text_from_image p none none [A] true 3 o3).1.isOk = false) := by
  refine ⟨?_, ?_, ?_, ?_⟩
  · have hh := eiLoop_allServerErr oracle maxR h500 maxR 0 (by omega)
    simpa [ei_extract, List.range_eq_range'] using hh
  · simp [extract_text_from_image, tryModels, hB]
  · simp [extract_text_from_image, tryModels, hC]
  · simp [extract_text_from_image, tryModels, hC, ExtractResult.isOk]

/-- C3 witness: concrete instances of the amended statement. -/
theorem C3_backoff_amended_witness :
    (∀ i, i < 3 → (fun _ : Nat => EIResponse.status 500 false "") i
        = EIResponse.status 500 false "")
  ∧ (ei_extract (fun _ => .status 500 false "") 3).calls = [0, 1, 2]
  ∧ (ei_extract (fun _ => .status 500 false "") 3).sleeps = [1, 2]
  ∧ (extract_text_from_image "p" none none ["A", "B"] true 3
        (fun _ _ => ApiResponse.httpErr 500)).2 = ⟨[(1, "A")], []⟩
  ∧ (extract_text_from_image "p" none none ["A"] true 3
        (fun _ _ => ApiResponse.reqErr)).2 = ⟨[(1, "A")], [2]⟩ := by
  have hw := C3_backoff_amended 3 (fun _ => .status 500 false "") (fun _ _ => rfl)
    "p" "A" "B" 3 (fun _ _ => .httpErr 500) rfl (fun _ _ => .reqErr) rfl
  refine ⟨fun _ _ => rfl, ?_, ?_, hw.2.1, hw.2.2.1⟩
  · rw [hw.1.2.1]; decide
  · rw [hw.1.2.2]; decide

/-- C4 (confirmed): a `RateLimited` (429) attempt advances to the next
roster model when one remains; with roster `[A, B]`, `A` rate-limited and
`B` succeeding (reporting itself as the serving model), the job outcome is
a success with `attempts = 2` and `model = B`, after one 2-second sleep. -/
theorem C4_model_fallback (p A B t : String) (u : Option Nat)
    (oracle : Nat → String → ApiResponse)
    (h1 : oracle 1 A = .httpErr 429)
    (h2 : oracle 2 B = .ok t (some B) u) :
    (extract_text_from_image p none none [A, B] true 3 oracle
        = (.ok p t (some B) u 2, ⟨[(1, A), (2, B)], [2]⟩))
    ∧ (∀ (m1 m2 : String) (ms : List String) (o : Nat → String → ApiResponse) (mr : Nat),
        o 1 m1 = .httpErr 429 →
        ∃ cs, (extract_text_from_image p none none (m1 :: m2 :: ms) true mr o).2.calls
            = (1, m1) :: (2, m2) :: cs) := by
  constructor
  · simp [extract_text_from_image, tryModels, h1, h2]
  · intro m1 m2 ms o mr ho
    obtain ⟨cs, hcs⟩ := tryModels_calls_cons p o true mr (m1 :: m2 :: ms).length m2 ms 2
      (some "HTTPError")
    refine ⟨cs, ?_⟩
    show (tryModels p o true mr (m1 :: m2 :: ms).length (m1 :: m2 :: ms) 1 none).2.calls = _
    rw [tryModels_429_step p o mr (m1 :: m2 :: ms).length m1 (m2 :: ms) 1 none ho (by simp)]
    simpa using hcs

/-- C4 witness: the fallback at a concrete oracle. -/
theorem C4_model_fallback_witness :
    ((fun a (_ : String) => if a = 1 then ApiResponse.httpErr 429
        else .ok "txt" (some "B") (some 7)) 1 "A" = ApiResponse.httpErr 429)
  ∧ extract_text_from_image "img.jpeg" none none ["A", "B"] true 3
        (fun a _ => if a = 1 then .httpErr 429 else .ok "txt" (some "B") (some 7))
      = (.ok "img.jpeg" "txt" (some "B") (some 7) 2, ⟨[(1, "A"), (2, "B")], [2]⟩) :=
  ⟨rfl, (C4_model_fallback "img.jpeg" "A" "B" "txt" (some 7) _ rfl rfl).1⟩

/-- C5 (counterexample): an unreadable image is requeued by the batch like
any other failure — with `max_retry_rounds = 2` the job is attempted again
in round 1, contradicting that no further attempt of any kind is made. -/
theorem C5_encoding_counterexample :
    (batch_extract_from_folder [⟨"bad.jpeg", some "FileNotFoundError", fun _ _ _ => .exn⟩]
        [] none true 2 ["A"]).2.1.invocations = [("bad.jpeg", 0), ("bad.jpeg", 1)]
  ∧ ("bad.jpeg", 1) ∈ (batch_extract_from_folder
        [⟨"bad.jpeg", some "FileNotFoundError", fun _ _ _ => .exn⟩]
        [] none true 2 ["A"]).2.1.invocations := by
  refine ⟨rfl, ?_⟩
  rw [(rfl : (batch_extract_from_folder
    [⟨"bad.jpeg", some "FileNotFoundError", fun _ _ _ => .exn⟩]
    [] none true 2 ["A"]).2.1.invocations = [("bad.jpeg", 0), ("bad.jpeg", 1)])]
  decide

/-- C5 (amended): an encode failure returns the failure dictionary carrying
the encoding exception with no network call and no model attempt within
that invocation; at the batch level, though, the job is requeued like any
other failure — re-attempted each round (never with a network call) and
finalized with its error artifact only when rounds are exhausted. -/
theorem C5_encoding_amended :
    (∀ (p ty : String) (model : Option String) (vm : List String) (ro : Bool) (mr : Nat)
        (oracle : Nat → String → ApiResponse),
      extract_text_from_image p (some ty) model vm ro mr oracle
        = (.err p (some ty), ⟨[], []⟩))
  ∧ (batch_extract_from_folder [⟨"bad.jpeg", some "FileNotFoundError", fun _ _ _ => .exn⟩]
        [] none true 2 ["A"]).2.1.netCalls = []
  ∧ (batch_extract_from_folder [⟨"bad.jpeg", some "FileNotFoundError", fun _ _ _ => .exn⟩]
        [] none true 2 ["A"]).2.1.artifacts
      = [.errorFile "bad_error.txt" "bad.jpeg" (some "FileNotFoundError") 2] :=
  ⟨fun _ _ _ _ _ _ _ => rfl, rfl, rfl⟩

/-- C1 (counterexample): `batch_extract_from_folder` processes three
discovered files in plain lexicographic order — `q10.jpeg` before
`q2.jpeg` — which differs from the natural order the claim asserts. -/
theorem C1_natural_order_counterexample :
    (batch_extract_from_folder
        [⟨"q1.jpeg", none, fun _ _ _ => .ok "t" none none⟩,
         ⟨"q10.jpeg", none, fun _ _ _ => .ok "t" none none⟩,
         ⟨"q2.jpeg", none, fun _ _ _ => .ok "t" none none⟩]
        [] none true 3 ["A"]).2.1.invocations
      = [("q1.jpeg", 0), ("q10.jpeg", 0), ("q2.jpeg", 0)]
  ∧ naturalOrder ["q1.jpeg", "q10.jpeg", "q2.jpeg"]
      = ["q1.jpeg", "q2.jpeg", "q10.jpeg"]
  ∧ ([("q1.jpeg", 0), ("q10.jpeg", 0), ("q2.jpeg", 0)] : List (String × Nat))
      ≠ [("q1.jpeg", 0), ("q2.jpeg", 0), ("q10.jpeg", 0)] :=
  ⟨rfl, rfl, by decide⟩

/-- C1 (amended): `natural_sort_key` splits a name into alternating
non-digit/digit runs, compares digit runs numerically and favors the
shorter name on prefix ties, sorting `["q1","q10","q2"]` to
`["q1","q2","q10"]` — this ordering is used by `join_questions.py` and by
`extract_images.py::process_images_folder`; `batch_extract_from_folder`,
however, processes discovered files in plain lexicographic order. -/
theorem C1_natural_order_amended :
    naturalOrder ["q1", "q10", "q2"] = ["q1", "q2", "q10"]
  ∧ natural_sort_key "q10" = [.strPart "q", .numPart 10, .strPart ""]
  ∧ naturalLtB "q2" "q10" = true
  ∧ naturalLtB "q" "q1" = true
  ∧ discoverOrder ["q1.jpeg", "q10.jpeg", "q2.jpeg"]
      = ["q1.jpeg", "q10.jpeg", "q2.jpeg"]
  ∧ naturalOrder ["q1.jpeg", "q10.jpeg", "q2.jpeg"]
      = ["q1.jpeg", "q2.jpeg", "q10.jpeg"] :=
  ⟨rfl, by decide, by decide, by decide, rfl, rfl⟩

/-! ## Round-scheduler lemmas -/

/-- The attempt loop always reports the image path it was given. -/
theorem tryModels_fst_imagePath (p : String) (o : Nat → String → ApiResponse)
    (ro : Bool) (mr tot : Nat) :
    ∀ (ms : List String) (a : Nat) (le : Option String),
      ((tryModels p o ro mr tot ms a le).1).imagePath = p := by
  intro ms
  induction ms with
  | nil => intro a le; rfl
  | cons m ms ih =>
    intro a le
    cases h : o a m <;> simp only [tryModels, h] <;> (try split_ifs) <;>
      first
        | exact ih _ _
        | rfl

/-- The batch's per-job attempt reports the job's own path. -/
theorem batchAttempt_imagePath (model : Option String) (vm : List String) (r : Nat) (j : Job) :
    (batchAttempt model vm r j).1.imagePath = j.path := by
  unfold batchAttempt extract_text_from_image
  cases hj : j.encodeErr with
  | some ty => simp [ExtractResult.imagePath]
  | none => simp [tryModels_fst_imagePath]

/-- A result that is not a success is the failure dictionary on its own
path and error type. -/
theorem ExtractResult.eq_err_of_not_isOk {res : ExtractResult} (h : res.isOk = false) :
    res = .err res.imagePath res.errorType := by
  cases res <;> simp_all [ExtractResult.isOk, ExtractResult.imagePath, ExtractResult.errorType]

/-- Appending the same suffix preserves and reflects string equality. -/
theorem string_append_right_cancel {a b s : String} (h : a ++ s = b ++ s) : a = b := by
  obtain ⟨da⟩ := a; obtain ⟨db⟩ := b; obtain ⟨ds⟩ := s
  have hd : da ++ ds = db ++ ds := congrArg String.data h
  exact congrArg String.mk (List.append_cancel_right hd)

/-- Boolean form of right-cancellation of string append. -/
theorem beq_append_right (a b s : String) : (a ++ s == b ++ s) = (a == b) := by
  by_cases h : a = b
  · subst h; simp
  · have hne : a ++ s ≠ b ++ s := fun hc => h (string_append_right_cancel hc)
    simp [h, hne]

/-- Whether an artifact is the error file `{st}_error.txt`. -/
def isErrArtFor (st : String) : Artifact → Bool
  | .errorFile f _ _ _ => f == st ++ "_error.txt"
  | _ => false

/-- Whether an artifact, when it is a success file, is not already present
in `existing`. -/
def successNotIn (existing : List String) : Artifact → Bool
  | .successFile f _ _ _ _ _ => !(existing.contains f)
  | _ => true

/-- The artifact written for a job is the error file for stem `st` exactly
when the job failed and its stem is `st`. -/
theorem isErrArtFor_artifactOf (st : String) (model : Option String) (vm : List String)
    (r : Nat) (x : Job) :
    isErrArtFor st (artifactOf model vm r x)
      = (!(jobSucceeds model vm x r) && (pathStem x.path == st)) := by
  unfold artifactOf jobSucceeds
  rcases hA : batchAttempt model vm r x with ⟨res, tr⟩
  cases res with
  | ok ip t mdl u k => simp [isErrArtFor, ExtractResult.isOk]
  | err ip ty => simp [isErrArtFor, ExtractResult.isOk, beq_append_right]

/-- The artifact written for a job whose success file is absent from
`existing` satisfies `successNotIn existing`. -/
theorem successNotIn_artifactOf (existing : List String) (model : Option String)
    (vm : List String) (r : Nat) (x : Job)
    (hx : existing.contains (pathStem x.path ++ "_extracted.txt") = false) :
    successNotIn existing (artifactOf model vm r x) = true := by
  unfold artifactOf
  rcases hA : batchAttempt model vm r x with ⟨res, tr⟩
  cases res with
  | ok ip t mdl u k => simp only [successNotIn, hx, Bool.not_false]
  | err ip ty => rfl

/-- Results of one round with requeueing: exactly the successful jobs'
results, in order. -/
theorem processRound_results_true (model : Option String) (vm : List String) (r : Nat)
    (q : List Job) :
    (processRound model vm r true q).1
      = (q.filter (fun x => jobSucceeds model vm x r)).map
          (fun x => (batchAttempt model vm r x).1) := by
  induction q with
  | nil => rfl
  | cons j js ih =>
    rcases hA : batchAttempt model vm r j with ⟨res, tr⟩
    cases res <;> simp [processRound, hA, List.filter_cons, jobSucceeds, ExtractResult.isOk, ih]

/-- Results of the final round: every job's result, in order. -/
theorem processRound_results_false (model : Option String) (vm : List String) (r : Nat)
    (q : List Job) :
    (processRound model vm r false q).1
      = q.map (fun x => (batchAttempt model vm r x).1) := by
  induction q with
  | nil => rfl
  | cons j js ih =>
    rcases hA : batchAttempt model vm r j with ⟨res, tr⟩
    cases res <;> simp [processRound, hA, ih]

/-- The next retry queue of a requeueing round: exactly the jobs that
failed this round, in order. -/
theorem processRound_queue_true (model : Option String) (vm : List String) (r : Nat)
    (q : List Job) :
    (processRound model vm r true q).2.2
      = q.filter (fun x => !(jobSucceeds model vm x r)) := by
  induction q with
  | nil => rfl
  | cons j js ih =>
    rcases hA : batchAttempt model vm r j with ⟨res, tr⟩
    cases res <;> simp [processRound, hA, List.filter_cons, jobSucceeds, ExtractResult.isOk, ih]

/-- The final round requeues nothing. -/
theorem processRound_queue_false (model : Option String) (vm : List String) (r : Nat)
    (q : List Job) :
    (processRound model vm r false q).2.2 = [] := by
  induction q with
  | nil => rfl
  | cons j js ih =>
    rcases hA : batchAttempt model vm r j with ⟨res, tr⟩
    cases res <;> simp [processRound, hA, ih]

/-- Every job of the round is invoked exactly once, in order, tagged with
the round number. -/
theorem processRound_invocations (model : Option String) (vm : List String) (r : Nat)
    (rq : Bool) (q : List Job) :
    (processRound model vm r rq q).2.1.invocations = q.map (fun x => (x.path, r)) := by
  induction q with
  | nil => rfl
  | cons j js ih =>
    rcases hA : batchAttempt model vm r j with ⟨res, tr⟩
    cases res with
    | ok ip t mdl u k => simp [processRound, hA, ih]
    | err ip ty => cases rq <;> simp [processRound, hA, ih]

/-- Artifacts of a requeueing round: the success files of the successful
jobs. -/
theorem processRound_artifacts_true (model : Option String) (vm : List String) (r : Nat)
    (q : List Job) :
    (processRound model vm r true q).2.1.artifacts
      = (q.filter (fun x => jobSucceeds model vm x r)).map (artifactOf model vm r) := by
  induction q with
  | nil => rfl
  | cons j js ih =>
    rcases hA : batchAttempt model vm r j with ⟨res, tr⟩
    cases res <;>
      simp [processRound, hA, List.filter_cons, jobSucceeds, ExtractResult.isOk, ih,
        artifactOf]

/-- Artifacts of the final round: one artifact per job — the success file
or the error file. -/
theorem processRound_artifacts_false (model : Option String) (vm : List String) (r : Nat)
    (q : List Job) :
    (processRound model vm r false q).2.1.artifacts = q.map (artifactOf model vm r) := by
  induction q with
  | nil => rfl
  | cons j js ih =>
    rcases hA : batchAttempt model vm r j with ⟨res, tr⟩
    cases res <;> simp [processRound, hA, ih, artifactOf]

/-- The network calls of one round: each job's calls, tagged with its path
and the round. -/
theorem processRound_netCalls (model : Option String) (vm : List String) (r : Nat)
    (rq : Bool) (q : List Job) :
    (processRound model vm r rq q).2.1.netCalls
      = (q.map (fun x => (batchAttempt model vm r x).2.calls.map
          (fun c => (x.path, r, c.1, c.2)))).flatten := by
  induction q with
  | nil => rfl
  | cons j js ih =>
    rcases hA : batchAttempt model vm r j with ⟨res, tr⟩
    cases res with
    | ok ip t mdl u k => simp [processRound, hA, ih]
    | err ip ty => cases rq <;> simp [processRound, hA, ih]

/-- An empty retry queue stops the scheduler at once. -/
theorem runRounds_nilQueue (model : Option String) (vm : List String) (maxRounds : Nat) :
    ∀ fuel r, runRounds model vm maxRounds fuel r [] = ([], BatchTrace.empty, []) := by
  intro fuel r; cases fuel <;> rfl

/-- Every invocation the scheduler makes carries a round between the
starting round and the fuel bound. -/
theorem runRounds_invocations_lt (model : Option String) (vm : List String) (maxRounds : Nat) :
    ∀ fuel r (q : List Job),
      ∀ pr ∈ (runRounds model vm maxRounds fuel r q).2.1.invocations,
        r ≤ pr.2 ∧ pr.2 < r + fuel := by
  intro fuel
  induction fuel with
  | zero => intro r q pr hpr; simp [runRounds, BatchTrace.empty] at hpr
  | succ f ih =>
    intro r q pr hpr
    cases q with
    | nil => simp [runRounds, BatchTrace.empty] at hpr
    | cons j js =>
      simp only [runRounds, BatchTrace.app] at hpr
      rcases List.mem_append.1 hpr with h | h
      · rw [processRound_invocations] at h
        obtain ⟨x, _, rfl⟩ := List.mem_map.1 h
        exact ⟨Nat.le_refl r, by omega⟩
      · have := ih (r + 1) _ pr h
        omega

/-- A path absent from the queue is never invoked and never generates a
network call, in any round. -/
theorem runRounds_no_touch (model : Option String) (vm : List String) (maxRounds : Nat)
    (p : String) :
    ∀ fuel r (q : List Job), (∀ x ∈ q, x.path ≠ p) →
      ((runRounds model vm maxRounds fuel r q).2.1.invocations.filter
          (fun pr => pr.1 == p) = []
        ∧ (runRounds model vm maxRounds fuel r q).2.1.netCalls.filter
          (fun c => c.1 == p) = []) := by
  intro fuel
  induction fuel with
  | zero => intro r q hq; simp [runRounds, BatchTrace.empty]
  | succ f ih =>
    intro r q hq
    cases q with
    | nil => simp [runRounds, BatchTrace.empty]
    | cons j js =>
      have hstep : ∀ x ∈ (processRound model vm r (decide (r < maxRounds - 1))
          (j :: js)).2.2, x.path ≠ p := by
        cases hd : decide (r < maxRounds - 1) with
        | true =>
          rw [processRound_queue_true]
          intro x hx
          exact hq x (List.mem_filter.1 hx).1
        | false =>
          rw [processRound_queue_false]
          intro x hx
          simp at hx
      have hrest := ih (r + 1) _ hstep
      simp only [runRounds, BatchTrace.app, List.filter_append]
      constructor
      · rw [hrest.1, processRound_invocations, List.append_nil, List.filter_eq_nil_iff]
        intro a ha
        obtain ⟨x, hx, hxa⟩ := List.mem_map.1 ha
        subst hxa
        simpa using hq x hx
      · rw [hrest.2, processRound_netCalls, List.append_nil, List.filter_eq_nil_iff]
        intro a ha
        obtain ⟨l, hl, hal⟩ := List.mem_flatten.1 ha
        obtain ⟨x, hx, hxl⟩ := List.mem_map.1 hl
        subst hxl
        obtain ⟨c, _, hc⟩ := List.mem_map.1 hal
        subst hc
        simpa using hq x hx

/-- When no queued job's success artifact is already present, every success
artifact the scheduler writes is new. -/
theorem runRounds_success_artifacts (model : Option String) (vm : List String)
    (maxRounds : Nat) (existing : List String) :
    ∀ fuel r (q : List Job),
      (∀ x ∈ q, existing.contains (pathStem x.path ++ "_extracted.txt") = false) →
      (runRounds model vm maxRounds fuel r q).2.1.artifacts.all
          (successNotIn existing) = true := by
  intro fuel
  induction fuel with
  | zero => intro r q hq; simp [runRounds, BatchTrace.empty]
  | succ f ih =>
    intro r q hq
    cases q with
    | nil => simp [runRounds, BatchTrace.empty]
    | cons j js =>
      have hstep : ∀ x ∈ (processRound model vm r (decide (r < maxRounds - 1))
          (j :: js)).2.2, existing.contains (pathStem x.path ++ "_extracted.txt") = false := by
        cases hd : decide (r < maxRounds - 1) with
        | true =>
          rw [processRound_queue_true]
          intro x hx
          exact hq x (List.mem_filter.1 hx).1
        | false =>
          rw [processRound_queue_false]
          intro x hx
          simp at hx
      have hrest := ih (r + 1) _ hstep
      simp only [runRounds, BatchTrace.app, List.all_append]
      rw [hrest, Bool.and_true]
      rw [List.all_eq_true]
      intro a ha
      cases hd : decide (r < maxRounds - 1) with
      | true =>
        rw [hd] at ha
        rw [processRound_artifacts_true] at ha
        obtain ⟨x, hx, hxa⟩ := List.mem_map.1 ha
        subst hxa
        exact successNotIn_artifactOf existing model vm r x (hq x (List.mem_filter.1 hx).1)
      | false =>
        rw [hd] at ha
        rw [processRound_artifacts_false] at ha
        obtain ⟨x, hx, hxa⟩ := List.mem_map.1 ha
        subst hxa
        exact successNotIn_artifactOf existing model vm r x (hq x hx)

/-- If predicate `p` implies predicate `s`, filtering by `s` leaves the
single element `a`, and `p` holds at `a`, then filtering by `p` also leaves
exactly `[a]`. -/
theorem filter_sub_singleton {α : Type} (p s : α → Bool) (l : List α) (a : α)
    (himp : ∀ x, p x = true → s x = true) (hl : l.filter s = [a]) (hpa : p a = true) :
    l.filter p = [a] := by
  have h1 : l.filter p = l.filter (fun x => p x && s x) := by
    apply List.filter_congr
    intro x _
    cases hx : p x with
    | true => simp [himp x hx]
    | false => simp
  rw [h1, ← List.filter_filter, hl]
  simp [hpa]

/-- A job that fails every round and is the only one with its stem in the
queue is finalized exactly once: across all remaining rounds its path
occurs exactly once in the recorded results — with the failure dictionary
of the last round — and its error artifact is written exactly once. -/
theorem runRounds_fail_all (model : Option String) (vm : List String) (maxRounds : Nat)
    (j : Job) (hfail : ∀ r, jobSucceeds model vm j r = false) :
    ∀ fuel r (q : List Job), r + fuel = maxRounds → 1 ≤ fuel →
      q.filter (fun x => pathStem x.path == pathStem j.path) = [j] →
      ((runRounds model vm maxRounds fuel r q).1.filter
          (fun res => res.imagePath == j.path)
        = [(batchAttempt model vm (maxRounds - 1) j).1])
      ∧ (((runRounds model vm maxRounds fuel r q).2.1.artifacts.filter
          (isErrArtFor (pathStem j.path))).length = 1) := by
  have himp : ∀ x : Job, (x.path == j.path) = true →
      (pathStem x.path == pathStem j.path) = true := by
    intro x hx
    have : x.path = j.path := by simpa using hx
    simp [this]
  intro fuel
  induction fuel with
  | zero => intro r q _ h1 _; omega
  | succ f ih =>
    intro r q hr _ hq
    have hqpath : q.filter (fun x => x.path == j.path) = [j] :=
      filter_sub_singleton _ _ q j himp hq (by simp)
    have hqcons : q ≠ [] := by
      intro hnil
      rw [hnil] at hq
      simp at hq
    cases q with
    | nil => exact absurd rfl hqcons
    | cons j0 js0 =>
      cases f with
      | zero =>
        -- final round: r = maxRounds - 1, requeue is off
        have hd : decide (r < maxRounds - 1) = false := by
          rw [decide_eq_false_iff_not]
          omega
        have hrm : r = maxRounds - 1 := by omega
        simp only [runRounds, hd, BatchTrace.app, runRounds_nilQueue,
          List.append_nil, List.filter_append]
        constructor
        · rw [processRound_results_false, List.filter_map]
          have hcong : List.filter
                ((fun res => res.imagePath == j.path) ∘ fun x => (batchAttempt model vm r x).1)
                (j0 :: js0)
              = List.filter (fun x => x.path == j.path) (j0 :: js0) := by
            apply List.filter_congr
            intro x _
            simp [Function.comp, batchAttempt_imagePath]
          rw [hcong, hqpath, hrm]
          rfl
        · rw [processRound_artifacts_false, List.filter_map]
          have hcong : List.filter
                (isErrArtFor (pathStem j.path) ∘ artifactOf model vm r) (j0 :: js0)
              = List.filter (fun x => !(jobSucceeds model vm x r)
                  && (pathStem x.path == pathStem j.path)) (j0 :: js0) := by
            apply List.filter_congr
            intro x _
            simp [Function.comp, isErrArtFor_artifactOf]
          rw [hcong, ← List.filter_filter, hq]
          simp [hfail r, BatchTrace.empty]
      | succ g =>
        -- requeueing round
        have hd : decide (r < maxRounds - 1) = true := by
          rw [decide_eq_true_eq]
          omega
        have hqnext : ((processRound model vm r true (j0 :: js0)).2.2).filter
            (fun x => pathStem x.path == pathStem j.path) = [j] := by
          rw [processRound_queue_true, List.filter_comm, hq]
          simp [hfail r]
        have hrest := ih (r + 1) ((processRound model vm r true (j0 :: js0)).2.2)
          (by omega) (by omega) hqnext
        simp only [runRounds, hd, BatchTrace.app, List.filter_append]
        constructor
        · rw [processRound_results_true, List.filter_map]
          have hcong : List.filter
                ((fun res => res.imagePath == j.path) ∘ fun x => (batchAttempt model vm r x).1)
                (List.filter (fun x => jobSucceeds model vm x r) (j0 :: js0))
              = List.filter (fun x => x.path == j.path)
                  (List.filter (fun x => jobSucceeds model vm x r) (j0 :: js0)) := by
            apply List.filter_congr
            intro x _
            simp [Function.comp, batchAttempt_imagePath]
          rw [hcong, List.filter_comm, hqpath]
          simp only [hfail r, List.filter_cons, List.filter_nil]
          rw [hrest.1]
          simp
        · rw [processRound_artifacts_true, List.filter_map]
          have hcong : List.filter
                (isErrArtFor (pathStem j.path) ∘ artifactOf model vm r)
                (List.filter (fun x => jobSucceeds model vm x r) (j0 :: js0))
              = List.filter (fun x => !(jobSucceeds model vm x r)
                  && (pathStem x.path == pathStem j.path))
                  (List.filter (fun x => jobSucceeds model vm x r) (j0 :: js0)) := by
            apply List.filter_congr
            intro x _
            simp [Function.comp, isErrArtFor_artifactOf]
          rw [hcong, List.filter_filter]
          have hnil : List.filter (fun x => (!(jobSucceeds model vm x r)
              && (pathStem x.path == pathStem j.path)) && jobSucceeds model vm x r)
              (j0 :: js0) = [] := by
            rw [List.filter_eq_nil_iff]
            intro x _
            cases hs : jobSucceeds model vm x r <;> simp [hs]
          rw [hnil]
          simpa using hrest.2

/-- C2 (confirmed): round-scheduler exhaustion. A job that fails in every
round (the only job with its stem) is finalized exactly once: its path
appears exactly once in the result list — as a failure dictionary — and
its error artifact is written exactly once. A requeueing round's next
queue is exactly the jobs that failed it, the final round requeues
nothing, the scheduler stops at once on an empty queue, and every
invocation happens in a round below `maxRounds`. -/
theorem C2_round_scheduler_exhaustion (model : Option String) (vm : List String)
    (maxRounds : Nat) (jobs : List Job) (j : Job)
    (hmr : 1 ≤ maxRounds)
    (hstem : jobs.filter (fun x => pathStem x.path == pathStem j.path) = [j])
    (hfail : ∀ r, jobSucceeds model vm j r = false) :
    (∃ ty, (batchRun model vm maxRounds jobs).1.filter
        (fun res => res.imagePath == j.path) = [.err j.path ty])
  ∧ ((batchRun model vm maxRounds jobs).2.1.artifacts.filter
        (isErrArtFor (pathStem j.path))).length = 1
  ∧ (∀ (q : List Job) (r : Nat),
      (processRound model vm r true q).2.2
        = q.filter (fun x => !(jobSucceeds model vm x r)))
  ∧ (∀ (q : List Job) (r : Nat), (processRound model vm r false q).2.2 = [])
  ∧ (∀ fuel r, runRounds model vm maxRounds fuel r [] = ([], BatchTrace.empty, []))
  ∧ ((batchRun model vm maxRounds jobs).2.1.invocations.all
        (fun pr => decide (pr.2 < maxRounds)) = true) := by
  have hmain := runRounds_fail_all model vm maxRounds j hfail maxRounds 0 jobs
    (by omega) hmr hstem
  refine ⟨?_, hmain.2, fun q r => processRound_queue_true model vm r q,
    fun q r => processRound_queue_false model vm r q,
    runRounds_nilQueue model vm maxRounds, ?_⟩
  · have hres := hmain.1
    have hko : (batchAttempt model vm (maxRounds - 1) j).1.isOk = false := hfail (maxRounds - 1)
    have herr := ExtractResult.eq_err_of_not_isOk hko
    rw [batchAttempt_imagePath] at herr
    exact ⟨(batchAttempt model vm (maxRounds - 1) j).1.errorType,
      by unfold batchRun; rw [hres, ← herr]⟩
  · rw [List.all_eq_true]
    intro pr hpr
    have := runRounds_invocations_lt model vm maxRounds maxRounds 0 jobs pr hpr
    simpa using this.2

/-- C2 witness: one always-failing job, two rounds. -/
theorem C2_round_scheduler_exhaustion_witness :
    (1 ≤ 2
      ∧ ([⟨"q3.jpeg", none, fun _ _ _ => ApiResponse.httpErr 500⟩] : List Job).filter
          (fun x => pathStem x.path == pathStem "q3.jpeg")
        = [⟨"q3.jpeg", none, fun _ _ _ => ApiResponse.httpErr 500⟩]
      ∧ (∀ r, jobSucceeds none ["A"]
          ⟨"q3.jpeg", none, fun _ _ _ => ApiResponse.httpErr 500⟩ r = false))
  ∧ (∃ ty, (batchRun none ["A"] 2
        [⟨"q3.jpeg", none, fun _ _ _ => ApiResponse.httpErr 500⟩]).1.filter
        (fun res => res.imagePath == "q3.jpeg") = [.err "q3.jpeg" ty]) :=
  ⟨⟨by decide, rfl, fun r => rfl⟩,
    (C2_round_scheduler_exhaustion none ["A"] 2
      [⟨"q3.jpeg", none, fun _ _ _ => ApiResponse.httpErr 500⟩]
      ⟨"q3.jpeg", none, fun _ _ _ => ApiResponse.httpErr 500⟩
      (by decide) rfl (fun r => rfl)).1⟩

/-- C6 (confirmed): idempotent re-run. With skip-existing on, a job whose
success artifact already exists is excluded from the round-0 queue, never
invoked, generates no network call, and no success artifact written by the
run carries a filename already present in the output folder — prior
success artifacts are neither altered nor duplicated. -/
theorem C6_idempotent_rerun (jobs : List Job) (existing : List String)
    (model : Option String) (vm : List String) (maxRounds : Nat) (j : Job)
    (hj : existing.contains (pathStem j.path ++ "_extracted.txt") = true) :
    ((eligibleJobs true existing (sortBy (fun a b => strLtB a.path b.path) jobs)).all
        (fun x => !(x.path == j.path)) = true)
  ∧ ((batch_extract_from_folder jobs existing model true maxRounds vm).2.1.invocations.filter
        (fun pr => pr.1 == j.path) = [])
  ∧ ((batch_extract_from_folder jobs existing model true maxRounds vm).2.1.netCalls.filter
        (fun c => c.1 == j.path) = [])
  ∧ ((batch_extract_from_folder jobs existing model true maxRounds vm).2.1.artifacts.all
        (successNotIn existing) = true) := by
  have hmem : ∀ x ∈ eligibleJobs true existing
      (sortBy (fun a b => strLtB a.path b.path) jobs),
      existing.contains (pathStem x.path ++ "_extracted.txt") = false := by
    intro x hx
    unfold eligibleJobs at hx
    simp only [if_pos rfl] at hx
    have := (List.mem_filter.1 hx).2
    simpa using this
  have hpath : ∀ x ∈ eligibleJobs true existing
      (sortBy (fun a b => strLtB a.path b.path) jobs), x.path ≠ j.path := by
    intro x hx hc
    have hx' := hmem x hx
    rw [hc] at hx'
    rw [hx'] at hj
    exact Bool.false_ne_true hj
  refine ⟨?_, ?_⟩
  · rw [List.all_eq_true]
    intro x hx
    simpa using hpath x hx
  · unfold batch_extract_from_folder
    cases he : eligibleJobs true existing (sortBy (fun a b => strLtB a.path b.path) jobs) with
    | nil => simp [BatchTrace.empty, successNotIn]
    | cons a as =>
      have hpath' : ∀ x ∈ a :: as, x.path ≠ j.path := by
        intro x hx
        exact hpath x (he ▸ hx)
      have hmem' : ∀ x ∈ a :: as,
          existing.contains (pathStem x.path ++ "_extracted.txt") = false := by
        intro x hx
        exact hmem x (he ▸ hx)
      have hnt := runRounds_no_touch model vm maxRounds j.path maxRounds 0 (a :: as) hpath'
      have hsa := runRounds_success_artifacts model vm maxRounds existing maxRounds 0
        (a :: as) hmem'
      exact ⟨hnt.1, hnt.2, hsa⟩

/-- C6 witness: one job whose artifact already exists is skipped outright. -/
theorem C6_idempotent_rerun_witness :
    (["q1_extracted.txt"].contains (pathStem "q1.jpeg" ++ "_extracted.txt") = true)
  ∧ (batch_extract_from_folder [⟨"q1.jpeg", none, fun _ _ _ => ApiResponse.ok "t" none none⟩]
        ["q1_extracted.txt"] none true 3 ["A"]).2.1.invocations.filter
        (fun pr => pr.1 == "q1.jpeg") = [] :=
  ⟨by decide,
    (C6_idempotent_rerun [⟨"q1.jpeg", none, fun _ _ _ => ApiResponse.ok "t" none none⟩]
      ["q1_extracted.txt"] none ["A"] 3
      ⟨"q1.jpeg", none, fun _ _ _ => ApiResponse.ok "t" none none⟩ (by decide)).2.1⟩
